import Mathlib

/-!
Verification development for the `cognitus` chat-message content pipeline.

The Python sources under `src/models/chat_message/content_manager/` (and the
content-manager modules that live next to the test tree) are shallowly
embedded here: strings are Lean `String`s (lists of characters = Unicode code
points, matching Python `str`), the handful of regular expressions the code
uses are embedded as bespoke scanners with Python `re` semantics (leftmost
match, greedy/lazy as written, non-overlapping `sub`/`finditer`), and
Python-level failures (`AttributeError` from a missing attribute,
`re.error` from an invalid pattern) are modelled with `Except`.

Python `dict`s preserve insertion order, so they are modelled as ordered
association lists.  Python `set` iteration order is implementation defined;
sets are modelled as insertion-ordered lists with deduplication, and any
theorem whose truth could depend on that order treats both orders explicitly.
-/

namespace Cognitus

/-- Errors a Python call in the embedded fragment can raise. -/
inductive PyError where
  /-- `AttributeError`: attribute lookup or assignment on an object without
  that attribute. -/
  | attributeError
  /-- `re.error`: compiling a malformed regular expression. -/
  | regexError
  deriving Repr, DecidableEq

/-- Characters for which Python `str.isspace()` is true (equivalently, the
characters matched by `re`'s `\s` for text patterns; the two sets coincide,
checked against CPython). -/
def pyIsSpace (c : Char) : Bool :=
  c = ' ' ∨ c = '\t' ∨ c = '\n' ∨ c = '\x0b' ∨ c = '\x0c' ∨ c = '\x0d' ∨
  c = '\x1c' ∨ c = '\x1d' ∨ c = '\x1e' ∨ c = '\x1f' ∨ c = '\x85' ∨ c = '\xa0' ∨
  c = '\u1680' ∨ ('\u2000' ≤ c ∧ c ≤ '\u200a') ∨ c = '\u2028' ∨ c = '\u2029' ∨
  c = '\u202f' ∨ c = '\u205f' ∨ c = '\u3000'

/-- Line terminators recognised by Python `str.splitlines` (besides the
two-character terminator `"\r\n"`, handled separately). -/
def isLineTerm (c : Char) : Bool :=
  c = '\n' ∨ c = '\x0b' ∨ c = '\x0c' ∨ c = '\x0d' ∨
  c = '\x1c' ∨ c = '\x1d' ∨ c = '\x1e' ∨ c = '\x85' ∨ c = '\u2028' ∨ c = '\u2029'

/-- Word characters of `re`'s `\w` / word boundaries, restricted to ASCII
(every string a theorem below touches is ASCII). -/
def isWordChar (c : Char) : Bool :=
  ('a' ≤ c ∧ c ≤ 'z') ∨ ('A' ≤ c ∧ c ≤ 'Z') ∨ ('0' ≤ c ∧ c ≤ '9') ∨ c = '_'

/-- Python `str.replace`: replace every non-overlapping occurrence of `pat`
(nonempty) left to right.  Structural on a fuel argument so that concrete
evaluations reduce definitionally; `fuel = s.length` always suffices because
each step consumes at least one character. -/
def replaceAllAux (pat rep : List Char) : Nat → List Char → List Char
  | _, [] => []
  | 0, s => s
  | fuel + 1, c :: rest =>
    if pat.isPrefixOf (c :: rest) then
      rep ++ replaceAllAux pat rep fuel ((c :: rest).drop pat.length)
    else
      c :: replaceAllAux pat rep fuel rest

/-- Python `s.replace(pat, rep)` for nonempty `pat`. -/
def pyReplace (s pat rep : String) : String :=
  ⟨replaceAllAux pat.data rep.data s.data.length s.data⟩

/-- Python `s.count(pat)`: number of non-overlapping occurrences. -/
def countOccAux (pat : List Char) : Nat → List Char → Nat
  | _, [] => 0
  | 0, _ => 0
  | fuel + 1, c :: rest =>
    if pat.isPrefixOf (c :: rest) then
      1 + countOccAux pat fuel ((c :: rest).drop pat.length)
    else
      countOccAux pat fuel rest

def pyCount (s pat : String) : Nat := countOccAux pat.data s.data.length s.data

/-- Python `pat in s` (substring containment). -/
def strContainsAux (pat : List Char) : List Char → Bool
  | [] => pat.isPrefixOf []
  | c :: rest => pat.isPrefixOf (c :: rest) || strContainsAux pat rest

def pyIn (pat s : String) : Bool := strContainsAux pat.data s.data

/-- Python `str.strip()` (no argument: strips `isspace` characters). -/
def pyStrip (s : String) : String :=
  ⟨((s.data.dropWhile pyIsSpace).reverse.dropWhile pyIsSpace).reverse⟩

/-- Python `str.lstrip()`. -/
def pyLstrip (s : List Char) : List Char := s.dropWhile pyIsSpace

/-- Python `line.isspace()`: nonempty and all whitespace. -/
def pyIsSpaceStr (s : List Char) : Bool := !s.isEmpty && s.all pyIsSpace

/-- Splitter on single-character line terminators; `line` holds the current
line, reversed.  A terminator ends a line; a trailing segment without a
terminator still forms a line; a terminator at the very end does not open an
empty final line. -/
def splitTermGo (line : List Char) : List Char → List (List Char)
  | [] => [line.reverse]
  | c :: rest =>
    if isLineTerm c then
      line.reverse :: (if rest.isEmpty then [] else splitTermGo [] rest)
    else splitTermGo (c :: line) rest

/-- Python `str.splitlines` (no lines on the empty string).  The
two-character terminator `"\r\n"` is first fused into a single `'\n'`, which
is equivalent to CPython treating `"\r\n"` as one terminator. -/
def pySplitlines (s : List Char) : List (List Char) :=
  match s with
  | [] => []
  | s => splitTermGo [] (replaceAllAux ['\x0d', '\n'] ['\n'] s.length s)

/-- Python `'\n'.join(lines)` on character lists. -/
def joinLines : List (List Char) → List Char
  | [] => []
  | [l] => l
  | l :: l2 :: ls => l ++ '\n' :: joinLines (l2 :: ls)

/-- Number of positions where two strings differ, Python
`sum(1 for a, b in zip(s, t) if a != b)`. -/
def zipNeCount : List Char → List Char → Nat
  | a :: as, b :: bs => (if a ≠ b then 1 else 0) + zipNeCount as bs
  | _, _ => 0

end Cognitus

namespace Cognitus

/-! ## `text_content_holder` : raw and processed content storage

From `src/models/chat_message/content_manager/text_content_holder/`.
`ContentModification.timestamp` (a wall-clock `datetime`) and the free-form
`metadata` dictionary are not modelled: no claim concerns them and neither
influences any other field. -/

/-- `RawContent` model (`raw_content_storer.py`). -/
structure RawContent where
  content : String
  content_type : String := "text"
  encoding : String := "utf-8"
  length : Nat := 0
  deriving Repr, DecidableEq

/-- `RawContentStorer.store_content`. -/
def rawStoreContent (content : String) : RawContent :=
  { content := content, length := content.length }

/-- `ContentModification` record (`processed_content_storer.py`). -/
structure ContentModification where
  modification_type : String
  original_content : String
  modified_content : String
  deriving Repr, DecidableEq

/-- `ProcessedContent` model (`processed_content_storer.py`). -/
structure ProcessedContent where
  content : String
  original_content : String
  modifications : List ContentModification := []
  final_length : Nat := 0
  processing_complete : Bool := false
  deriving Repr, DecidableEq

/-- `ProcessedContentStorer.store_content`. -/
def storeContent (content original_content : String)
    (modification_type : Option String) : ProcessedContent :=
  let processed : ProcessedContent :=
    { content := content
      original_content := original_content
      final_length := content.length }
  match modification_type with
  | some mt =>
    { processed with
      modifications := processed.modifications ++
        [{ modification_type := mt
           original_content := original_content
           modified_content := content }] }
  | none => processed

/-- `ProcessedContentStorer.add_modification` (the `metadata` argument is
dropped, see the section comment). -/
def addModification (processed_content : ProcessedContent)
    (new_content : String) (modification_type : String) : ProcessedContent :=
  { processed_content with
    modifications := processed_content.modifications ++
      [{ modification_type := modification_type
         original_content := processed_content.content
         modified_content := new_content }]
    content := new_content
    final_length := new_content.length }

/-- `ProcessedContentStorer.mark_complete`. -/
def markComplete (processed_content : ProcessedContent) : ProcessedContent :=
  { processed_content with processing_complete := true }

end Cognitus

namespace Cognitus

/-! ## `whitespace_remover/extra_space_trimmer.py` -/

/-- `SpaceTrimConfig` (the `max_consecutive_spaces` field is an `int` in the
source; only non-negative values occur, every claim uses the default `1`). -/
structure SpaceTrimConfig where
  trim_edges : Bool := true
  max_consecutive_spaces : Nat := 1
  preserve_indentation : Bool := false
  preserve_paragraph_breaks : Bool := true
  deriving Repr, DecidableEq

def defaultSpaceTrimConfig : SpaceTrimConfig := {}

/-- Index of the last `'\n'` in a list, if any. -/
def lastNewlineIdx (l : List Char) : Option Nat :=
  (l.reverse.findIdx? (· = '\n')).map (fun i => l.length - 1 - i)

/-- One pass of `re.sub(r'\n\s*\n', '\n\x00\n', s)`.  A match starts at a
`'\n'`; the greedy `\s*` runs through the following whitespace run and
backtracks to the last `'\n'` inside it, so the match extends to the last
newline reachable through whitespace; scanning resumes after the match. -/
def paraSubAux : Nat → List Char → List Char
  | 0, s => s
  | _, [] => []
  | fuel + 1, c :: rest =>
    if c = '\n' then
      let run := rest.takeWhile pyIsSpace
      match lastNewlineIdx run with
      | some k => '\n' :: '\x00' :: '\n' :: paraSubAux fuel (rest.drop (k + 1))
      | none => c :: paraSubAux fuel rest
    else c :: paraSubAux fuel rest

/-- One pass of `re.sub(' {m+1,}', ' ' * m, s)`: every maximal run of more
than `m` spaces is replaced by `m` spaces. -/
def spaceRunSubOnce (m : Nat) : Nat → List Char → List Char
  | 0, s => s
  | _, [] => []
  | fuel + 1, c :: rest =>
    if c = ' ' then
      let run := (c :: rest).takeWhile (· = ' ')
      (if run.length ≥ m + 1 then List.replicate m ' ' else run) ++
        spaceRunSubOnce m fuel ((c :: rest).drop run.length)
    else c :: spaceRunSubOnce m fuel rest

/-- `re.search(' {m+1,}', s)` succeeds iff `s` contains `m + 1` consecutive
spaces. -/
def hasSpaceRun (m : Nat) (s : List Char) : Bool :=
  strContainsAux (List.replicate (m + 1) ' ') s

/-- The `while re.search(...): result = re.sub(...)` loop of `trim_spaces`,
also accumulating `stats["spaces_removed"]`.  Each iteration that fires
strictly shrinks the text, so `fuel = length + 1` suffices. -/
def trimCollapseLoop (m : Nat) : Nat → List Char × Nat → List Char × Nat
  | 0, st => st
  | fuel + 1, (s, removed) =>
    if hasSpaceRun m s then
      let s' := spaceRunSubOnce m s.length s
      trimCollapseLoop m fuel (s', removed + (s.length - s'.length))
    else (s, removed)

/-- Stats dictionary of `ExtraSpaceTrimmer.trim_spaces`. -/
structure TrimStats where
  spaces_removed : Nat := 0
  edges_trimmed : Nat := 0
  deriving Repr, DecidableEq

/-- `ExtraSpaceTrimmer.trim_spaces`. -/
def trimSpaces (cfg : SpaceTrimConfig) (text : String) : String × TrimStats :=
  let result := text
  let result1 := if cfg.trim_edges then pyStrip result else result
  let edges := if cfg.trim_edges then result.length - result1.length else 0
  let result2 :=
    if cfg.preserve_paragraph_breaks then
      (⟨paraSubAux result1.data.length result1.data⟩ : String)
    else result1
  let st3 :=
    if cfg.max_consecutive_spaces > 0 then
      trimCollapseLoop cfg.max_consecutive_spaces (result2.data.length + 1)
        (result2.data, 0)
    else (result2.data, 0)
  let result4 :=
    if cfg.preserve_paragraph_breaks then
      pyReplace ⟨st3.1⟩ "\x00" "\n"
    else ⟨st3.1⟩
  let result5 :=
    if !cfg.preserve_indentation then
      (⟨joinLines ((pySplitlines result4.data).map
        (fun l => if pyIsSpaceStr l then l else pyLstrip l))⟩ : String)
    else result4
  (result5, { spaces_removed := st3.2, edges_trimmed := edges })

end Cognitus

namespace Cognitus

/-! ## Span protection: code spans, and numbered sentinel markers

The regex `` `[^`]+`|```[\s\S]*?``` `` is shared by
`punctuation_standardizer.py` and `excess_punctuation_remover.py`
(the latter wraps it in a capture group, which does not change the
matches). -/

/-- Earliest start index of `pat` in a list, if any. -/
def findSubIdx (pat : List Char) : List Char → Option Nat
  | [] => if pat.isPrefixOf ([] : List Char) then some 0 else none
  | c :: rest =>
    if pat.isPrefixOf (c :: rest) then some 0
    else (findSubIdx pat rest).map (· + 1)

/-- `re.finditer` for `` `[^`]+`|```[\s\S]*?``` ``: at each position the
inline alternative is tried first (one backtick, at least one non-backtick,
a closing backtick); otherwise the lazy fenced-block alternative; matches
are non-overlapping and scanning resumes after each match. -/
def findCodeSpans : Nat → List Char → List (List Char)
  | 0, _ => []
  | _, [] => []
  | fuel + 1, c :: rest =>
    if c = '`' then
      let run := rest.takeWhile (· ≠ '`')
      if run.length > 0 ∧ (rest.drop run.length).head? = some '`' then
        ('`' :: run ++ ['`']) :: findCodeSpans fuel (rest.drop (run.length + 1))
      else if ['`', '`'].isPrefixOf rest then
        match findSubIdx ['`', '`', '`'] (rest.drop 2) with
        | some i =>
          ('`' :: '`' :: '`' :: ((rest.drop 2).take i ++ ['`', '`', '`'])) ::
            findCodeSpans fuel ((rest.drop 2).drop (i + 3))
        | none => findCodeSpans fuel rest
      else findCodeSpans fuel rest
    else findCodeSpans fuel rest

/-- The protection loop shared by the preservers: for the `i`-th match,
build the marker `"\x00" ++ tag ++ str(i) ++ "\x00"`, record the pair in
insertion order, and replace every occurrence of the matched text (Python
`str.replace` replaces all occurrences). -/
def protectLoop (tag : String) : Nat → List String → String →
    String × List (String × String)
  | _, [], text => (text, [])
  | i, sp :: rest, text =>
    let marker := "\x00" ++ tag ++ toString i ++ "\x00"
    let text2 := pyReplace text sp marker
    let (tfin, prs) := protectLoop tag (i + 1) rest text2
    (tfin, (marker, sp) :: prs)

/-- Restoration loop: replace each recorded marker by its content, in the
order of the recorded pairs. -/
def restoreLoop : List (String × String) → String → String
  | [], t => t
  | (m, c) :: rest, t => restoreLoop rest (pyReplace t m c)

end Cognitus

namespace Cognitus

/-! ## `punctuation_normalizer/punctuation_standardizer.py` -/

/-- Update the value of an existing key in an ordered stats list (Python
dict assignment keeps the key's position). -/
def setStat (k : String) (v : Nat) : List (String × Nat) → List (String × Nat)
  | [] => []
  | (k2, v2) :: rest =>
    if k2 = k then (k, v) :: rest else (k2, v2) :: setStat k v rest

/-- `StandardizationConfig` with its default `punctuation_map`, as an
insertion-ordered association list.  The source's "quote" block does not
actually contain smart quotes: its first three entries are the duplicated
ASCII pair (a double quote mapped to itself), and the two
"smart single quotes" lines parse as a single triple-quoted string —
three consecutive apostrophes open a string that runs to the next three,
so the key is the literal text between them (a colon, the quoted
apostrophe, a comma, the line comment, a newline and the next line's
indentation), mapped to the apostrophe.  The resulting dict has eight keys
(checked by parsing the source file's dict literal). -/
structure StandardizationConfig where
  punctuation_map : List (String × String) :=
    [("\"", "\""),
     (": \"'\",  # Smart single quotes\n        ", "'"),
     ("\u2014", "-"), ("\u2013", "-"), ("\u2015", "-"),
     ("\u2026", "..."),
     ("\u2024", "."), ("\u2025", "..")]
  preserve_quotes_in_code : Bool := true
  standardize_ellipsis : Bool := true
  fix_spacing : Bool := true
  deriving Repr, DecidableEq

def defaultStandardizationConfig : StandardizationConfig := {}

/-- The punctuation-replacement loop of `standardize`: for each map entry
present in the text, count its occurrences, replace all of them, and record
the count in the stats. -/
def mapReplaceLoop : List (String × String) → String × List (String × Nat) →
    String × List (String × Nat)
  | [], st => st
  | (orig, std) :: rest, (result, stats) =>
    if pyIn orig result then
      mapReplaceLoop rest
        (pyReplace result orig std, setStat orig (pyCount result orig) stats)
    else mapReplaceLoop rest (result, stats)

/-- `re.sub(r'\.{2,}', '...', s)`: every maximal run of two or more dots
becomes exactly three dots. -/
def dotsSubAux : Nat → List Char → List Char
  | 0, s => s
  | _, [] => []
  | fuel + 1, c :: rest =>
    if c = '.' then
      let run := (c :: rest).takeWhile (· = '.')
      (if run.length ≥ 2 then ['.', '.', '.'] else run) ++
        dotsSubAux fuel ((c :: rest).drop run.length)
    else c :: dotsSubAux fuel rest

/-- The punctuation characters of `_fix_spacing`'s character class. -/
def isPunctMark (c : Char) : Bool :=
  c = '.' ∨ c = ',' ∨ c = '!' ∨ c = '?' ∨ c = ';' ∨ c = ':'

/-- `re.sub(r'\s+([.,!?;:])', r'\1', s)`: a whitespace run immediately
followed by a punctuation mark is deleted (the mark is kept). -/
def spacingSub1 : Nat → List Char → List Char
  | 0, s => s
  | _, [] => []
  | fuel + 1, c :: rest =>
    if pyIsSpace c then
      let run := (c :: rest).takeWhile pyIsSpace
      match (c :: rest).drop run.length with
      | p :: after2 =>
        if isPunctMark p then p :: spacingSub1 fuel after2
        else run ++ spacingSub1 fuel (p :: after2)
      | [] => run
    else c :: spacingSub1 fuel rest

/-- `re.sub(r'([.,!?;:])(?!\s|$)', r'\1 ', s)`: a space is inserted after
every punctuation mark not already followed by whitespace or the end. -/
def spacingSub2 : Nat → List Char → List Char
  | 0, s => s
  | _, [] => []
  | fuel + 1, c :: rest =>
    if isPunctMark c then
      match rest with
      | [] => [c]
      | d :: _ =>
        if pyIsSpace d then c :: spacingSub2 fuel rest
        else c :: ' ' :: spacingSub2 fuel rest
    else c :: spacingSub2 fuel rest

/-- `PunctuationStandardizer._fix_spacing`. -/
def fixSpacing (text : String) : String :=
  let s1 := spacingSub1 text.data.length text.data
  ⟨spacingSub2 s1.length s1⟩

/-- `PunctuationStandardizer.standardize`. -/
def standardize (cfg : StandardizationConfig) (text : String) :
    String × List (String × Nat) :=
  let stats := cfg.punctuation_map.map (fun p => (p.1, 0))
  let pr :=
    if cfg.preserve_quotes_in_code then
      protectLoop "CODE" 0
        ((findCodeSpans text.data.length text.data).map (fun l => (⟨l⟩ : String)))
        text
    else (text, [])
  let st2 := mapReplaceLoop cfg.punctuation_map (pr.1, stats)
  let r3 :=
    if cfg.standardize_ellipsis then
      (⟨dotsSubAux st2.1.data.length st2.1.data⟩ : String)
    else st2.1
  let r4 := if cfg.fix_spacing then fixSpacing r3 else r3
  (restoreLoop pr.2 r4, st2.2)

end Cognitus

namespace Cognitus

/-! ## `punctuation_normalizer/excess_punctuation_remover.py` -/

/-- `ExcessConfig`: per-mark maximum consecutive runs (keys are the
one-character strings `'!'`, `'?'`, `'.'`, `'-'`, modelled as characters),
in dict insertion order. -/
structure ExcessConfig where
  max_consecutive : List (Char × Nat) := [('!', 3), ('?', 2), ('.', 3), ('-', 2)]
  preserve_markdown : Bool := true
  preserve_urls : Bool := true
  preserve_code : Bool := true
  deriving Repr, DecidableEq

def defaultExcessConfig : ExcessConfig := {}

/-- The three marker families recorded by `_preserve_special_content`
(Python keeps them in sets of `(marker, content)` pairs; here: lists in
insertion order, deduplicated like a set). -/
structure PreservedSpans where
  code : List (String × String) := []
  urls : List (String × String) := []
  markdown : List (String × String) := []
  deriving Repr, DecidableEq

/-- Try `https?://\S+` at the head of the list: `http`, an optional `s`,
`://`, then a maximal nonempty run of non-whitespace. -/
def tryUrl (s : List Char) : Option (List Char × List Char) :=
  if ['h', 't', 't', 'p'].isPrefixOf s then
    let s1 := s.drop 4
    if [':', '/', '/'].isPrefixOf s1 then
      let body := (s1.drop 3).takeWhile (fun c => !pyIsSpace c)
      if body.isEmpty then none
      else some (['h', 't', 't', 'p', ':', '/', '/'] ++ body, (s1.drop 3).drop body.length)
    else if ['s', ':', '/', '/'].isPrefixOf s1 then
      let body := (s1.drop 4).takeWhile (fun c => !pyIsSpace c)
      if body.isEmpty then none
      else some (['h', 't', 't', 'p', 's', ':', '/', '/'] ++ body, (s1.drop 4).drop body.length)
    else none
  else none

/-- `re.finditer(r'(https?://\S+)', s)`. -/
def findUrls : Nat → List Char → List (List Char)
  | 0, _ => []
  | _, [] => []
  | fuel + 1, c :: rest =>
    match tryUrl (c :: rest) with
    | some (span, remaining) => span :: findUrls fuel remaining
    | none => findUrls fuel rest

/-- `re.finditer` for a lazy delimited pattern `D[\s\S]*?D` (the markdown
patterns: bold, italics, strikethrough).  The body may be empty; the
closing delimiter is the earliest occurrence after the opening one. -/
def findDelimSpans (dl : List Char) : Nat → List Char → List (List Char)
  | 0, _ => []
  | _, [] => []
  | fuel + 1, c :: rest =>
    if dl.isPrefixOf (c :: rest) then
      let after := (c :: rest).drop dl.length
      match findSubIdx dl after with
      | some i =>
        (dl ++ after.take i ++ dl) ::
          findDelimSpans dl fuel (after.drop (i + dl.length))
      | none => findDelimSpans dl fuel rest
    else findDelimSpans dl fuel rest

/-- The five markdown delimiters, in the order the source lists its
patterns: `**`, `__`, `*`, `_`, `~~`. -/
def markdownDelims : List (List Char) :=
  [['*', '*'], ['_', '_'], ['*'], ['_'], ['~', '~']]

/-- Append pairs to a set-modelled list, skipping exact duplicates (Python
`set.add`). -/
def addPairsDedup (prs : List (String × String)) :
    List (String × String) → List (String × String)
  | [] => prs
  | p :: rest =>
    if p ∈ prs then addPairsDedup prs rest
    else addPairsDedup (prs ++ [p]) rest

/-- The markdown leg of `_preserve_special_content`: each of the five
patterns is matched against the current text, and — the crucial detail —
the marker counter restarts at `0` for every pattern, so two different
patterns can produce the same `\x00MD0\x00` marker. -/
def mdProtect : List (List Char) → String × List (String × String) →
    String × List (String × String)
  | [], st => st
  | dl :: rest, (t, prs) =>
    let step := protectLoop "MD" 0
      ((findDelimSpans dl t.data.length t.data).map (fun l => (⟨l⟩ : String))) t
    mdProtect rest (step.1, addPairsDedup prs step.2)

/-- `ExcessPunctuationRemover._preserve_special_content`. -/
def preserveSpecial (cfg : ExcessConfig) (text : String) :
    String × PreservedSpans :=
  let stc :=
    if cfg.preserve_code then
      protectLoop "CODE" 0
        ((findCodeSpans text.data.length text.data).map (fun l => (⟨l⟩ : String)))
        text
    else (text, [])
  let stu :=
    if cfg.preserve_urls then
      protectLoop "URL" 0
        ((findUrls stc.1.data.length stc.1.data).map (fun l => (⟨l⟩ : String)))
        stc.1
    else (stc.1, [])
  let stm :=
    if cfg.preserve_markdown then mdProtect markdownDelims (stu.1, [])
    else (stu.1, [])
  (stm.1, { code := stc.2, urls := stu.2, markdown := stm.2 })

/-- `ExcessPunctuationRemover._restore_special_content`: markdown first,
then urls, then code. -/
def restoreSpecial (text : String) (preserved : PreservedSpans) : String :=
  restoreLoop preserved.code
    (restoreLoop preserved.urls (restoreLoop preserved.markdown text))

/-- Leftmost maximal run of `mark` of length at least `n`: returns its
start index and length (the match of `re.search('\mark' * n + '+', s)`). -/
def findMarkRun (mark : Char) (n : Nat) : Nat → List Char → Option (Nat × Nat)
  | 0, _ => none
  | _, [] => none
  | fuel + 1, c :: rest =>
    if c = mark then
      let run := (c :: rest).takeWhile (· = mark)
      if run.length ≥ n then some (0, run.length)
      else
        (findMarkRun mark n fuel ((c :: rest).drop run.length)).map
          (fun p => (p.1 + run.length, p.2))
    else
      (findMarkRun mark n fuel rest).map (fun p => (p.1 + 1, p.2))

/-- The inner `while True` loop of `remove_excess` for one mark: find the
leftmost over-long run, splice in `mark * max_count`, add the excess to the
running count; stop when no match remains. -/
def excessLoop (mark : Char) (maxc : Nat) : Nat → String × Nat → String × Nat
  | 0, st => st
  | fuel + 1, (s, cnt) =>
    match findMarkRun mark (maxc + 1) s.data.length s.data with
    | none => (s, cnt)
    | some (i, l) =>
      excessLoop mark maxc fuel
        (⟨s.data.take i ++ List.replicate maxc mark ++ s.data.drop (i + l)⟩,
          cnt + (l - maxc))

/-- Update the value of an existing key in a char-keyed stats list. -/
def setStatC (k : Char) (v : Nat) : List (Char × Nat) → List (Char × Nat)
  | [] => []
  | (k2, v2) :: rest =>
    if k2 = k then (k, v) :: rest else (k2, v2) :: setStatC k v rest

/-- The outer loop of `remove_excess` over the configured marks. -/
def marksLoop : List (Char × Nat) → String × List (Char × Nat) →
    String × List (Char × Nat)
  | [], st => st
  | (mark, maxc) :: rest, (s, stats) =>
    let step := excessLoop mark maxc (s.data.length + 1) (s, 0)
    marksLoop rest (step.1, setStatC mark step.2 stats)

/-- `ExcessPunctuationRemover.remove_excess`. -/
def removeExcess (cfg : ExcessConfig) (text : String) :
    String × List (Char × Nat) :=
  let stats := cfg.max_consecutive.map (fun p => (p.1, 0))
  let pr := preserveSpecial cfg text
  let st2 := marksLoop cfg.max_consecutive (pr.1, stats)
  (restoreSpecial st2.1 pr.2, st2.2)

end Cognitus

namespace Cognitus

/-! ## `profanity_filter/` : `blacklist_loader.py` and
`profanity_replacer.py`

Python keeps the blacklists in `set`s; they are modelled as lists whose
iteration order stands in for the set's (no theorem below depends on it:
the statements hold for any order). -/

/-- `BlacklistConfig`. -/
structure BlacklistConfig where
  default_blacklist : List String := []
  custom_blacklist : List String := []
  locale : String := "en"
  case_sensitive : Bool := false
  deriving Repr, DecidableEq

/-- `ReplacementConfig`.  Note it has no `blacklist_loader` field — the
replacer's whole-word branch nevertheless reads one. -/
structure ReplacementConfig where
  replacement_char : String := "*"
  preserve_length : Bool := true
  whole_words_only : Bool := true
  custom_replacements : List (String × String) := []
  deriving Repr, DecidableEq

/-- ASCII lowercase (every blacklist word in scope is ASCII). -/
def charLower (c : Char) : Char :=
  if 'A' ≤ c ∧ c ≤ 'Z' then Char.ofNat (c.toNat + 32) else c

def pyLower (s : String) : String := ⟨s.data.map charLower⟩

/-- `BlacklistLoader._initialize_blacklist` / `get_blacklist`: union of the
two blacklists, lowercased when matching is case-insensitive. -/
def getBlacklist (cfg : BlacklistConfig) : List String :=
  let combined := (cfg.default_blacklist ++ cfg.custom_blacklist).dedup
  if !cfg.case_sensitive then (combined.map pyLower).dedup else combined

/-- Python repeats a string: `s * n`. -/
def strRepeat (s : String) : Nat → String
  | 0 => ""
  | n + 1 => s ++ strRepeat s n

/-- `ProfanityReplacer._get_replacement`: custom replacement first, then
length-preserving run of `replacement_char`, then the bare character. -/
def getReplacement (cfg : ReplacementConfig) (word : String) : String :=
  match cfg.custom_replacements.lookup word with
  | some r => r
  | none =>
    if cfg.preserve_length then strRepeat cfg.replacement_char word.length
    else cfg.replacement_char

/-- The body of the whole-word branch of `replace_profanity`.  For each
word the call builds the `finditer` flags by evaluating
`self.config.blacklist_loader.config.case_sensitive`, but `self.config` is
the `ReplacementConfig`, which has no `blacklist_loader` attribute (the
code means `self.blacklist_loader.config`): pydantic raises
`AttributeError` before any matching happens, so the branch only returns
when the blacklist is empty. -/
def wholeWordsLoop : List String → String → List (String × Nat) →
    Except PyError (String × List (String × Nat))
  | [], t, counts => .ok (t, counts)
  | _ :: _, _, _ => .error .attributeError

/-- The `else` branch of `replace_profanity` (plain substring
replacement). -/
def replaceAllWordsLoop (rcfg : ReplacementConfig) :
    List String → String × List (String × Nat) → String × List (String × Nat)
  | [], st => st
  | w :: rest, (t, counts) =>
    if pyIn w t then
      replaceAllWordsLoop rcfg rest
        (pyReplace t w (getReplacement rcfg w), counts ++ [(w, pyCount t w)])
    else replaceAllWordsLoop rcfg rest (t, counts)

/-- `ProfanityReplacer.replace_profanity`. -/
def replaceProfanity (bcfg : BlacklistConfig) (rcfg : ReplacementConfig)
    (text : String) : Except PyError (String × List (String × Nat)) :=
  let blacklist := getBlacklist bcfg
  if rcfg.whole_words_only then wholeWordsLoop blacklist text []
  else .ok (replaceAllWordsLoop rcfg blacklist (text, []))

end Cognitus

namespace Cognitus

/-! ## `emoji_handler/emoji_formatter.py`

`EmojiFormatter._limit_emoji_count` consults the emoji extractor, whose
Unicode classification reads the host's `unicodedata` name table; that
function is therefore taken as a parameter (`limiter`) rather than
embedded.  Under the default configuration `limit_emoji` is `None`, so the
parameter is never used and every theorem below holds for all of them. -/

/-- `FormatterConfig` with its default conversion maps.  The source file
stores the "emoji" sides as mojibake: the UTF-8 bytes of each emoji
decoded as a single-byte codepage (for example `\u00f0\u0178\u02dc\u0160`
where U+1F60A was meant); the strings below are those exact codepoint
sequences, taken from parsing the source file's dict literals. -/
structure FormatterConfig where
  normalize_text_emoji : Bool := true
  unicode_to_text : Bool := false
  text_to_unicode : Bool := true
  limit_emoji : Option Nat := none
  emoji_spacing : Bool := true
  text_to_unicode_map : List (String × String) :=
    [(":)", "\u00f0\u0178\u02dc\u0160"), (":(", "\u00f0\u0178\u02dc\u00a2"),
     (":D", "\u00f0\u0178\u02dc\u0192"), (";)", "\u00f0\u0178\u02dc\u2030"),
     ("<3", "\u00e2\u00a4\u00ef\u00b8"), (":P", "\u00f0\u0178\u02dc\u203a"),
     (":O", "\u00f0\u0178\u02dc\u00ae"), ("xD", "\u00f0\u0178\u02dc\u2020")]
  unicode_to_text_map : List (String × String) :=
    [("\u00f0\u0178\u02dc\u0160", ":)"), ("\u00f0\u0178\u02dc\u00a2", ":("),
     ("\u00f0\u0178\u02dc\u0192", ":D"), ("\u00f0\u0178\u02dc\u2030", ";)"),
     ("\u00e2\u00a4\u00ef\u00b8", "<3"), ("\u00f0\u0178\u02dc\u203a", ":P"),
     ("\u00f0\u0178\u02dc\u00ae", ":O"), ("\u00f0\u0178\u02dc\u2020", "xD")]
  deriving Repr, DecidableEq

def defaultFormatterConfig : FormatterConfig := {}

/-- One normalization pattern of `_normalize_text_emoji`: `F-?L` with an
optional dash (`:-)` and `:)` both rewrite to the replacement). -/
def normPatSub (first last : Char) (repl : List Char) : Nat → List Char → List Char
  | 0, s => s
  | _, [] => []
  | fuel + 1, c :: rest =>
    if c = first then
      match rest with
      | '-' :: d :: rest2 =>
        if d = last then repl ++ normPatSub first last repl fuel rest2
        else c :: normPatSub first last repl fuel rest
      | d :: rest2 =>
        if d = last then repl ++ normPatSub first last repl fuel rest2
        else c :: normPatSub first last repl fuel rest
      | [] => [c]
    else c :: normPatSub first last repl fuel rest

/-- The normalization table of `_normalize_text_emoji`, in source order:
(first char, optional dash, last char) and the replacement. -/
def normalizationTable : List ((Char × Char) × List Char) :=
  [((':', ')'), [':', ')']), ((':', '('), [':', '(']),
   ((';', ')'), [';', ')']), ((':', 'D'), [':', 'D']),
   ((':', 'P'), [':', 'P']), ((':', 'O'), [':', 'O'])]

/-- `EmojiFormatter._normalize_text_emoji`: the six substitutions applied
in sequence. -/
def normalizeTextEmoji (text : String) : String :=
  normalizationTable.foldl
    (fun t e => ⟨normPatSub e.1.1 e.1.2 e.2 t.data.length t.data⟩) text

/-- `EmojiFormatter._convert_text_to_unicode`. -/
def convertTextToUnicode (cfg : FormatterConfig) (text : String) : String :=
  cfg.text_to_unicode_map.foldl (fun t e => pyReplace t e.1 e.2) text

/-- `EmojiFormatter._convert_unicode_to_text`. -/
def convertUnicodeToText (cfg : FormatterConfig) (text : String) : String :=
  cfg.unicode_to_text_map.foldl (fun t e => pyReplace t e.1 e.2) text

/-- `EmojiFormatter._add_emoji_spacing`.  Both of its patterns contain the
Perl-style escape `\x{1F300}`; Python `re` requires `\x` to be followed by
exactly two hex digits, so compiling the pattern raises
`re.error("incomplete escape \x")` on every call, whatever the text. -/
def addEmojiSpacing (_text : String) : Except PyError String :=
  .error .regexError

/-- `EmojiFormatter.format_emoji` (stats are an insertion-ordered dict;
`zipNeCount` is the `sum(1 for a, b in zip(original, result) if a != b)`
the source uses; `if self.config.limit_emoji:` is Python truthiness, false
for both `None` and `0`). -/
def formatEmoji (cfg : FormatterConfig) (limiter : String → Nat → String)
    (text : String) : Except PyError (String × List (String × Nat)) := do
  let stats0 : List (String × Nat) :=
    [("text_emoji_normalized", 0), ("text_to_unicode", 0),
     ("unicode_to_text", 0), ("emoji_limited", 0), ("spacing_fixed", 0)]
  let st1 :=
    if cfg.normalize_text_emoji then
      let r := normalizeTextEmoji text
      (r, setStat "text_emoji_normalized" (zipNeCount text.data r.data) stats0)
    else (text, stats0)
  let st2 :=
    if cfg.text_to_unicode then
      let r := convertTextToUnicode cfg st1.1
      (r, setStat "text_to_unicode" (zipNeCount st1.1.data r.data) st1.2)
    else if cfg.unicode_to_text then
      let r := convertUnicodeToText cfg st1.1
      (r, setStat "unicode_to_text" (zipNeCount st1.1.data r.data) st1.2)
    else st1
  let st3 :=
    match cfg.limit_emoji with
    | some n =>
      if n ≠ 0 then
        let r := limiter st2.1 n
        (r, setStat "emoji_limited" (zipNeCount st2.1.data r.data) st2.2)
      else st2
    | none => st2
  if cfg.emoji_spacing then
    let r4 ← addEmojiSpacing st3.1
    return (r4, setStat "spacing_fixed" (zipNeCount st3.1.data r4.data) st3.2)
  else
    return st3

end Cognitus

namespace Cognitus

/-! ## `whitespace_remover/line_break_cleaner.py` -/

/-- `LineBreakConfig`. -/
structure LineBreakConfig where
  max_consecutive_breaks : Nat := 2
  normalize_line_endings : Bool := true
  preserve_markdown_breaks : Bool := false
  preserve_code_blocks : Bool := true
  deriving Repr, DecidableEq

def defaultLineBreakConfig : LineBreakConfig := {}

/-- `re.finditer(r'```[\s\S]*?```', s)`: fenced code blocks only (the
cleaner's `_preserve_code_blocks` has no inline alternative). -/
def findBlockSpans : Nat → List Char → List (List Char)
  | 0, _ => []
  | _, [] => []
  | fuel + 1, c :: rest =>
    if ['`', '`', '`'].isPrefixOf (c :: rest) then
      match findSubIdx ['`', '`', '`'] ((c :: rest).drop 3) with
      | some i =>
        ('`' :: '`' :: '`' :: (((c :: rest).drop 3).take i ++ ['`', '`', '`'])) ::
          findBlockSpans fuel (((c :: rest).drop 3).drop (i + 3))
      | none => findBlockSpans fuel rest
    else findBlockSpans fuel rest

/-- One pass of `re.sub(ch * (m+1) + '+', ch * m, s)` for a single
character: every maximal run of more than `m` copies of `ch` becomes `m`
copies. -/
def charRunSubOnce (ch : Char) (m : Nat) : Nat → List Char → List Char
  | 0, s => s
  | _, [] => []
  | fuel + 1, c :: rest =>
    if c = ch then
      let run := (c :: rest).takeWhile (· = ch)
      (if run.length ≥ m + 1 then List.replicate m ch else run) ++
        charRunSubOnce ch m fuel ((c :: rest).drop run.length)
    else c :: charRunSubOnce ch m fuel rest

/-- The `while re.search(...)` collapse loop of `clean_breaks`, with the
`breaks_removed` stat. -/
def breakCollapseLoop (m : Nat) : Nat → List Char × Nat → List Char × Nat
  | 0, st => st
  | fuel + 1, (s, removed) =>
    if strContainsAux (List.replicate (m + 1) '\n') s then
      let s2 := charRunSubOnce '\n' m s.length s
      breakCollapseLoop m fuel (s2, removed + (s.length - s2.length))
    else (s, removed)

/-- Stats dictionary of `LineBreakCleaner.clean_breaks`. -/
structure BreakStats where
  breaks_removed : Nat := 0
  breaks_normalized : Nat := 0
  deriving Repr, DecidableEq

/-- `LineBreakCleaner.clean_breaks`. -/
def cleanBreaks (cfg : LineBreakConfig) (text : String) : String × BreakStats :=
  let pr :=
    if cfg.preserve_code_blocks then
      protectLoop "CODE" 0
        ((findBlockSpans text.data.length text.data).map (fun l => (⟨l⟩ : String)))
        text
    else (text, [])
  let st2 :=
    if cfg.normalize_line_endings then
      let r := pyReplace (pyReplace pr.1 "\x0d\n" "\n") "\x0d" "\n"
      (r, pr.1.length - r.length)
    else (pr.1, 0)
  let r3 :=
    if cfg.preserve_markdown_breaks then pyReplace st2.1 "  \n" "\x01" else st2.1
  let st4 :=
    if cfg.max_consecutive_breaks > 0 then
      breakCollapseLoop cfg.max_consecutive_breaks (r3.data.length + 1)
        (r3.data, 0)
    else (r3.data, 0)
  let r5 :=
    if cfg.preserve_markdown_breaks then
      pyReplace ⟨st4.1⟩ "\x01" "  \n"
    else ⟨st4.1⟩
  (restoreLoop pr.2 r5,
    { breaks_removed := st4.2, breaks_normalized := st2.2 })

end Cognitus

namespace Cognitus

/-! ## `content_formatter/formality_adjuster/` : casual and formal setters -/

/-- Case-insensitive (or exact) character comparison. -/
def eqCI (ci : Bool) (a b : Char) : Bool :=
  if ci then charLower a = charLower b else a = b

/-- Does the literal `w` match at the head of `s` (case-insensitively when
`ci`)? -/
def matchesLitAt (ci : Bool) (w s : List Char) : Bool :=
  decide (w.length ≤ s.length) &&
    (w.zip (s.take w.length)).all (fun p => eqCI ci p.1 p.2)

/-- Word-ness of an optional character (`none` = outside the string,
non-word). -/
def isWordOpt : Option Char → Bool
  | none => false
  | some c => isWordChar c

/-- `re.sub(r'\b' + re.escape(w) + r'\b', rep, s)` together with the match
count (`finditer` over the same text finds the same matches).  `prev` is
the character before the current position; a `\b` holds where word-ness
changes.  Matches are non-overlapping and the scan resumes after each. -/
def subWordAux (ci : Bool) (w rep : List Char) :
    Nat → Option Char → List Char → List Char × Nat
  | 0, _, s => (s, 0)
  | _, _, [] => ([], 0)
  | fuel + 1, prev, c :: rest =>
    let here := c :: rest
    let matched := here.take w.length
    let after := here.drop w.length
    if matchesLitAt ci w here &&
        (isWordOpt prev != isWordOpt (some c)) &&
        (isWordOpt matched.getLast? != isWordOpt after.head?) then
      let nxt := subWordAux ci w rep fuel matched.getLast? after
      (rep ++ nxt.1, nxt.2 + 1)
    else
      let nxt := subWordAux ci w rep fuel (some c) rest
      (c :: nxt.1, nxt.2)

/-- Stable sort of a substitution table by source-phrase length, longest
first (Python `sorted(..., key=lambda x: len(x[0]), reverse=True)` keeps
the original order of equal-length keys). -/
def insDesc (x : String × String) :
    List (String × String) → List (String × String)
  | [] => [x]
  | y :: rest =>
    if x.1.length ≥ y.1.length then x :: y :: rest else y :: insDesc x rest

def sortByLenDesc (l : List (String × String)) : List (String × String) :=
  l.foldr insDesc []

/-- `re.finditer(r'"([^"]+)"', s)`: double-quoted spans with a nonempty
body. -/
def findQuoteSpans : Nat → List Char → List (List Char)
  | 0, _ => []
  | _, [] => []
  | fuel + 1, c :: rest =>
    if c = '"' then
      let run := rest.takeWhile (· ≠ '"')
      if run.length > 0 ∧ (rest.drop run.length).head? = some '"' then
        ('"' :: run ++ ['"']) :: findQuoteSpans fuel (rest.drop (run.length + 1))
      else findQuoteSpans fuel rest
    else findQuoteSpans fuel rest

/-- `CasualFormality` (`casual_formality_setter.py`), tables in source
order. -/
structure CasualFormality where
  contractions : List (String × String) :=
    [("are not", "aren't"), ("cannot", "can't"), ("could not", "couldn't"),
     ("did not", "didn't"), ("does not", "doesn't"), ("do not", "don't"),
     ("had not", "hadn't"), ("has not", "hasn't"), ("have not", "haven't"),
     ("is not", "isn't"), ("it is", "it's"), ("should not", "shouldn't"),
     ("that is", "that's"), ("they are", "they're"), ("was not", "wasn't"),
     ("were not", "weren't"), ("what is", "what's"), ("will not", "won't"),
     ("would not", "wouldn't"), ("you are", "you're")]
  casual_words : List (String × String) :=
    [("hello", "hi"), ("goodbye", "bye"), ("please", "pls"),
     ("thanks", "thx"), ("approximately", "about"), ("regarding", "about")]
  preserve_formal_quotes : Bool := true
  preserve_code_blocks : Bool := true
  deriving Repr, DecidableEq

def defaultCasualFormality : CasualFormality := {}

/-- Stats dictionary of `set_casual_formality`. -/
structure CasualStats where
  contractions_applied : Nat := 0
  casual_words_applied : Nat := 0
  deriving Repr, DecidableEq

/-- The pattern-application loop of `set_casual_formality`: plain substring
containment, count and replace-all, attributing the count to whichever
table the key belongs to. -/
def casualApplyLoop (cfg : CasualFormality) :
    List (String × String) → String × CasualStats → String × CasualStats
  | [], st => st
  | (formal, casual) :: rest, (result, stats) =>
    if pyIn formal result then
      let count := pyCount result formal
      let stats2 :=
        if (cfg.contractions.lookup formal).isSome then
          { stats with contractions_applied := stats.contractions_applied + count }
        else
          { stats with casual_words_applied := stats.casual_words_applied + count }
      casualApplyLoop cfg rest (pyReplace result formal casual, stats2)
    else casualApplyLoop cfg rest (result, stats)

/-- `CasualFormalitySetter.set_casual_formality` (quoted spans protected
first, then code spans; one preservation dict, restored in insertion
order). -/
def setCasualFormality (cfg : CasualFormality) (text : String) :
    String × CasualStats :=
  let q :=
    if cfg.preserve_formal_quotes then
      protectLoop "QUOTE" 0
        ((findQuoteSpans text.data.length text.data).map (fun l => (⟨l⟩ : String)))
        text
    else (text, [])
  let cp :=
    if cfg.preserve_code_blocks then
      protectLoop "CODE" 0
        ((findCodeSpans q.1.data.length q.1.data).map (fun l => (⟨l⟩ : String)))
        q.1
    else (q.1, [])
  let st := casualApplyLoop cfg
    (sortByLenDesc (cfg.contractions ++ cfg.casual_words)) (cp.1, {})
  (restoreLoop (q.2 ++ cp.2) st.1, st.2)

/-- `FormalFormality` (`formal_formality_setter.py`). -/
structure FormalFormality where
  expand_contractions : List (String × String) :=
    [("aren't", "are not"), ("can't", "cannot"), ("couldn't", "could not"),
     ("didn't", "did not"), ("doesn't", "does not"), ("don't", "do not"),
     ("hadn't", "had not"), ("hasn't", "has not"), ("haven't", "have not"),
     ("isn't", "is not"), ("it's", "it is"), ("shouldn't", "should not"),
     ("that's", "that is"), ("they're", "they are"), ("wasn't", "was not"),
     ("weren't", "were not"), ("what's", "what is"), ("won't", "will not"),
     ("wouldn't", "would not"), ("you're", "you are")]
  formal_words : List (String × String) :=
    [("hi", "hello"), ("hey", "hello"), ("bye", "goodbye"),
     ("pls", "please"), ("thx", "thanks"), ("about", "regarding"),
     ("ok", "acceptable")]
  capitalize_sentences : Bool := true
  standardize_greetings : Bool := true
  preserve_code_blocks : Bool := true
  deriving Repr, DecidableEq

def defaultFormalFormality : FormalFormality := {}

/-- Stats dictionary of `set_formal_formality`. -/
structure FormalStats where
  contractions_expanded : Nat := 0
  formal_words_applied : Nat := 0
  sentences_capitalized : Nat := 0
  greetings_standardized : Nat := 0
  deriving Repr, DecidableEq

/-- The pattern-application loop of `set_formal_formality`:
case-insensitive whole-word match and replace. -/
def formalApplyLoop (cfg : FormalFormality) :
    List (String × String) → String × FormalStats → String × FormalStats
  | [], st => st
  | (casual, formal) :: rest, (result, stats) =>
    if pyIn casual (pyLower result) then
      let sc := subWordAux true casual.data formal.data
        result.data.length none result.data
      let stats2 :=
        if (cfg.expand_contractions.lookup casual).isSome then
          { stats with contractions_expanded := stats.contractions_expanded + sc.2 }
        else
          { stats with formal_words_applied := stats.formal_words_applied + sc.2 }
      formalApplyLoop cfg rest (⟨sc.1⟩, stats2)
    else formalApplyLoop cfg rest (result, stats)

/-- ASCII uppercase (the `group(2).upper()` call of `_capitalize_sentences`
only ever sees whitespace, on which it is the identity). -/
def pyUpperChar (c : Char) : Char :=
  if 'a' ≤ c ∧ c ≤ 'z' then Char.ofNat (c.toNat - 32) else c

/-- Scanner for the `[.!?]\s+` arm of `_capitalize_sentences`'s pattern
`([.!?]\s+|^)(\s*)([a-z])`.  The replacement re-emits `group(1)`,
`group(2).upper()` and `group(3)` — it never upper-cases `group(3)`, so the
whole substitution is the identity on the text. -/
def capSentAux : Nat → List Char → List Char
  | 0, s => s
  | _, [] => []
  | fuel + 1, c :: rest =>
    if c = '.' ∨ c = '!' ∨ c = '?' then
      let run := rest.takeWhile pyIsSpace
      if run.length > 0 then
        match rest.drop run.length with
        | d :: rest2 =>
          if 'a' ≤ d ∧ d ≤ 'z' then
            c :: (run.map pyUpperChar ++ d :: capSentAux fuel rest2)
          else c :: capSentAux fuel rest
        | [] => c :: rest
      else c :: capSentAux fuel rest
    else c :: capSentAux fuel rest

/-- `FormalFormalitySetter._capitalize_sentences` (the `^` arm is anchored
at position 0). -/
def capitalizeSentences (text : String) : String :=
  let s := text.data
  let run := s.takeWhile pyIsSpace
  match s.drop run.length with
  | d :: rest2 =>
    if 'a' ≤ d ∧ d ≤ 'z' then
      ⟨run.map pyUpperChar ++ d :: capSentAux rest2.length rest2⟩
    else ⟨capSentAux s.length s⟩
  | [] => ⟨capSentAux s.length s⟩

/-- `FormalFormalitySetter._standardize_greetings`: four case-insensitive
whole-word substitutions, in source order. -/
def greetingsSub (text : String) : String :=
  ([("hi", "Hello"), ("hey", "Hello"), ("bye", "Goodbye"),
    ("see ya", "Goodbye")] : List (String × String)).foldl
    (fun t e => ⟨(subWordAux true e.1.data e.2.data t.data.length none t.data).1⟩)
    text

/-- `FormalFormalitySetter.set_formal_formality`. -/
def setFormalFormality (cfg : FormalFormality) (text : String) :
    String × FormalStats :=
  let pr :=
    if cfg.preserve_code_blocks then
      protectLoop "CODE" 0
        ((findCodeSpans text.data.length text.data).map (fun l => (⟨l⟩ : String)))
        text
    else (text, [])
  let st := formalApplyLoop cfg
    (sortByLenDesc (cfg.expand_contractions ++ cfg.formal_words)) (pr.1, {})
  let st2 :=
    if cfg.capitalize_sentences then
      let r := capitalizeSentences st.1
      (r, { st.2 with sentences_capitalized := zipNeCount st.1.data r.data })
    else st
  let st3 :=
    if cfg.standardize_greetings then
      let r := greetingsSub st2.1
      (r, { st2.2 with greetings_standardized := zipNeCount st2.1.data r.data })
    else st2
  (restoreLoop pr.2 st3.1, st3.2)

end Cognitus

namespace Cognitus

/-! ## `content_formatter/tone_polarity_adjuster/` : positive and negative
tone appliers

`random.choice` is modelled by a caller-supplied `rng : Nat → Nat` and a
running call counter `k`: the `k`-th choice from a list `l` is
`l[rng k % l.length]`.  Every theorem about the orchestrator quantifies
over `rng`. -/

def isAsciiLower (c : Char) : Bool := 'a' ≤ c ∧ c ≤ 'z'

def isAsciiUpper (c : Char) : Bool := 'A' ≤ c ∧ c ≤ 'Z'

/-- Maximal run of `(?:[A-Z][a-z]*)` groups: (consumed, rest). -/
def camelGroups : Nat → List Char → List Char × List Char
  | 0, s => ([], s)
  | fuel + 1, s =>
    match s with
    | c :: rest =>
      if isAsciiUpper c then
        let lows := rest.takeWhile isAsciiLower
        let nxt := camelGroups fuel (rest.drop lows.length)
        (c :: (lows ++ nxt.1), nxt.2)
      else ([], s)
    | [] => ([], [])

/-- Maximal run of `(?:_[a-z]+)` groups: (consumed, rest). -/
def snakeGroups : Nat → List Char → List Char × List Char
  | 0, s => ([], s)
  | fuel + 1, s =>
    match s with
    | '_' :: rest =>
      let lows := rest.takeWhile isAsciiLower
      if lows.isEmpty then ([], s)
      else
        let nxt := snakeGroups fuel (rest.drop lows.length)
        ('_' :: (lows ++ nxt.1), nxt.2)
    | _ => ([], s)

/-- Try the technical-term pattern
`\b[a-z]+(?:[A-Z][a-z]*)+\b|\b[a-z]+(?:_[a-z]+)+\b` at the head (the
boundary before the position is the caller's concern): camelCase first,
then snake_case; the trailing `\b` demands a non-word continuation. -/
def tryTech (s : List Char) : Option (List Char × List Char) :=
  let low := s.takeWhile isAsciiLower
  if low.isEmpty then none
  else
    let rest := s.drop low.length
    let cg := camelGroups rest.length rest
    if !cg.1.isEmpty && !(isWordOpt cg.2.head?) then some (low ++ cg.1, cg.2)
    else
      let sg := snakeGroups rest.length rest
      if !sg.1.isEmpty && !(isWordOpt sg.2.head?) then some (low ++ sg.1, sg.2)
      else none

/-- `re.finditer` for the technical-term pattern, tracking the previous
character for the leading `\b`. -/
def findTechSpans : Nat → Option Char → List Char → List (List Char)
  | 0, _, _ => []
  | _, _, [] => []
  | fuel + 1, prev, c :: rest =>
    if !(isWordOpt prev) && isAsciiLower c then
      match tryTech (c :: rest) with
      | some (span, remaining) =>
        span :: findTechSpans fuel span.getLast? remaining
      | none => findTechSpans fuel (some c) rest
    else findTechSpans fuel (some c) rest

/-- `re.finditer(r'\b' + word + r'\b', s, re.IGNORECASE)` as a list of
`(start, end, matched_text)` triples (positions in the scanned string). -/
def findWordMatches (ci : Bool) (w : List Char) :
    Nat → Nat → Option Char → List Char → List (Nat × Nat × List Char)
  | 0, _, _, _ => []
  | _, _, _, [] => []
  | fuel + 1, pos, prev, c :: rest =>
    let here := c :: rest
    let matched := here.take w.length
    let after := here.drop w.length
    if matchesLitAt ci w here &&
        (isWordOpt prev != isWordOpt (some c)) &&
        (isWordOpt matched.getLast? != isWordOpt after.head?) then
      (pos, pos + w.length, matched) ::
        findWordMatches ci w fuel (pos + w.length) matched.getLast? after
    else findWordMatches ci w fuel (pos + 1) (some c) rest

/-- Python `str.capitalize()`: first character uppercased, the rest
lowercased (ASCII). -/
def pyCapitalize (s : String) : String :=
  match s.data with
  | [] => ""
  | c :: rest => ⟨pyUpperChar c :: rest.map charLower⟩

/-- The `k`-th `random.choice(l)` under the model's `rng`. -/
def rngChoice (rng : Nat → Nat) (k : Nat) (l : List String) : String × Nat :=
  (l.getD (rng k % l.length) "", k + 1)

/-- Stats dictionary shared by both tone appliers. -/
structure ToneStats where
  words_replaced : Nat := 0
  phrases_added : Nat := 0
  prefixes_added : Nat := 0
  deriving Repr, DecidableEq

/-- The inner match loop of the tone appliers' word replacement: matches
come from the text as it was when `finditer` ran, but each splice applies
the recorded indices to the current (already spliced) text, exactly as the
source does; after every splice `_add_hopeful_phrases` /
`_add_doubtful_phrases` appends a random phrase at the very end of the
text when the dictionary key has additions, and `phrases_added` is
incremented unconditionally. -/
def applyMatches (phraseAdds : List (String × List String)) (rng : Nat → Nat)
    (key : String) (replacementWord : String) :
    List (Nat × Nat × List Char) → String × ToneStats × Nat →
      String × ToneStats × Nat
  | [], st => st
  | (s, e, matched) :: rest, (result, stats, k) =>
    let replacement :=
      if (matched.head?.map isAsciiUpper).getD false then
        pyCapitalize replacementWord
      else replacementWord
    let result2 : String :=
      ⟨result.data.take s ++ replacement.data ++ result.data.drop e⟩
    let phr :=
      match phraseAdds.lookup key with
      | some adds =>
        let ch := rngChoice rng k adds
        (result2 ++ " " ++ ch.1, ch.2)
      | none => (result2, k)
    applyMatches phraseAdds rng key replacementWord rest
      (phr.1,
        { stats with
          words_replaced := stats.words_replaced + 1
          phrases_added := stats.phrases_added + 1 },
        phr.2)

/-- The outer word-replacement loop of the tone appliers. -/
def toneWordsLoop (phraseAdds : List (String × List String)) (rng : Nat → Nat) :
    List (String × String) → String × ToneStats × Nat →
      String × ToneStats × Nat
  | [], st => st
  | (key, repl) :: rest, (result, stats, k) =>
    let ms := findWordMatches true key.data result.data.length 0 none result.data
    toneWordsLoop phraseAdds rng rest
      (applyMatches phraseAdds rng key repl ms (result, stats, k))

/-- `re.split(r'([.!?]\s+)', s)` with the captured separators kept in the
list: alternating fields and separators, final field possibly empty. -/
def splitSentencesAux : Nat → List Char → List Char → List (List Char)
  | 0, acc, s => [acc.reverse ++ s]
  | _, acc, [] => [acc.reverse]
  | fuel + 1, acc, c :: rest =>
    if c = '.' ∨ c = '!' ∨ c = '?' then
      let run := rest.takeWhile pyIsSpace
      if run.length > 0 then
        acc.reverse :: (c :: run) :: splitSentencesAux fuel [] (rest.drop run.length)
      else splitSentencesAux fuel (c :: acc) rest
    else splitSentencesAux fuel (c :: acc) rest

/-- `_add_positive_prefix` / `_add_negative_prefix`: skip when the sentence
already starts with a configured prefix; otherwise, when its lowercase form
starts with one of the opposite-polarity words, prepend a random prefix. -/
def addTonePrefix (prefixes opposite : List String) (rng : Nat → Nat)
    (k : Nat) (s : String) : String × Bool × Nat :=
  if prefixes.any (fun p => p.data.isPrefixOf s.data) then (s, false, k)
  else if opposite.any (fun n => n.data.isPrefixOf (pyLower s).data) then
    let ch := rngChoice rng k prefixes
    (ch.1 ++ s, true, ch.2)
  else (s, false, k)

/-- The sentence loop of the tone appliers: pieces that are blank after
`strip()` pass through; the others run the prefix check. -/
def prefixLoop (prefixes opposite : List String) (rng : Nat → Nat) :
    List (List Char) → ToneStats → Nat → List (List Char) × ToneStats × Nat
  | [], stats, k => ([], stats, k)
  | sen :: rest, stats, k =>
    if (pyStrip ⟨sen⟩).data.isEmpty then
      let nxt := prefixLoop prefixes opposite rng rest stats k
      (sen :: nxt.1, nxt.2.1, nxt.2.2)
    else
      let r := addTonePrefix prefixes opposite rng k ⟨sen⟩
      let stats2 :=
        if r.2.1 then { stats with prefixes_added := stats.prefixes_added + 1 }
        else stats
      let nxt := prefixLoop prefixes opposite rng rest stats2 r.2.2
      (r.1.data :: nxt.1, nxt.2.1, nxt.2.2)

/-- `PositiveToneConfig` (`positive_tone_applier.py`), tables in source
order. -/
structure PositiveToneConfig where
  word_replacements : List (String × String) :=
    [("problem", "challenge"), ("difficult", "challenging"),
     ("hard", "challenging"), ("fail", "attempt"), ("failed", "attempted"),
     ("bad", "less than ideal"), ("issue", "opportunity"),
     ("mistake", "learning opportunity"), ("wrong", "different"),
     ("impossible", "challenging"), ("terrible", "needs improvement")]
  phrase_additions : List (String × List String) :=
    [("can't", ["yet", "at the moment"]),
     ("impossible", ["right now", "at this stage"]),
     ("failed", ["this time", "in this attempt"])]
  positive_prefixes : List String :=
    ["We can ", "Let's try to ", "We could ", "Consider ", "Perhaps we can "]
  preserve_code_blocks : Bool := true
  preserve_technical_terms : Bool := true
  maintain_context : Bool := true
  deriving Repr, DecidableEq

def defaultPositiveToneConfig : PositiveToneConfig := {}

/-- The `negative_starts` list of `_add_positive_prefix`. -/
def negativeStarts : List String :=
  ["can't", "cannot", "don't", "won't", "impossible"]

/-- The span protection shared by the two tone appliers: code spans, then
technical terms, one preservation dict. -/
def toneProtect (preserveCode preserveTech : Bool) (text : String) :
    String × List (String × String) :=
  let pc :=
    if preserveCode then
      protectLoop "CODE" 0
        ((findCodeSpans text.data.length text.data).map (fun l => (⟨l⟩ : String)))
        text
    else (text, [])
  let pt :=
    if preserveTech then
      protectLoop "TECH" 0
        ((findTechSpans pc.1.data.length none pc.1.data).map
          (fun l => (⟨l⟩ : String)))
        pc.1
    else (pc.1, [])
  (pt.1, pc.2 ++ pt.2)

/-- `PositiveToneApplier.apply_positive_tone`. -/
def applyPositiveTone (cfg : PositiveToneConfig) (rng : Nat → Nat) (k0 : Nat)
    (text : String) : (String × ToneStats) × Nat :=
  let pr := toneProtect cfg.preserve_code_blocks cfg.preserve_technical_terms text
  let st := toneWordsLoop cfg.phrase_additions rng cfg.word_replacements
    (pr.1, {}, k0)
  let sens := splitSentencesAux st.1.data.length [] st.1.data
  let pf := prefixLoop cfg.positive_prefixes negativeStarts rng sens st.2.1 st.2.2
  let joined : String := ⟨pf.1.foldr (· ++ ·) []⟩
  ((restoreLoop pr.2 joined, pf.2.1), pf.2.2)

/-- `NegativeToneConfig` (`negative_tone_applier.py`). -/
structure NegativeToneConfig where
  word_replacements : List (String × String) :=
    [("good", "mediocre"), ("great", "barely adequate"),
     ("excellent", "passable"), ("amazing", "unremarkable"),
     ("perfect", "acceptable"), ("easy", "deceptively simple"),
     ("simple", "oversimplified"), ("helpful", "marginally useful"),
     ("successful", "barely successful"), ("improve", "patch")]
  phrase_additions : List (String × List String) :=
    [("can", ["but probably shouldn't", "though it's risky"]),
     ("will", ["eventually", "somehow"]),
     ("should", ["if you must", "I suppose"])]
  negative_prefixes : List String :=
    ["Unfortunately, ", "Regrettably, ", "As expected, ", "Predictably, ",
     "Not surprisingly, "]
  preserve_code_blocks : Bool := true
  preserve_technical_terms : Bool := true
  maintain_professionalism : Bool := true
  deriving Repr, DecidableEq

def defaultNegativeToneConfig : NegativeToneConfig := {}

/-- The `positive_starts` list of `_add_negative_prefix`. -/
def positiveStarts : List String :=
  ["great", "good", "excellent", "perfect", "amazing"]

/-- `NegativeToneApplier.apply_negative_tone` (the prefix pass runs only
under `maintain_professionalism`). -/
def applyNegativeTone (cfg : NegativeToneConfig) (rng : Nat → Nat) (k0 : Nat)
    (text : String) : (String × ToneStats) × Nat :=
  let pr := toneProtect cfg.preserve_code_blocks cfg.preserve_technical_terms text
  let st := toneWordsLoop cfg.phrase_additions rng cfg.word_replacements
    (pr.1, {}, k0)
  let pf :=
    if cfg.maintain_professionalism then
      let sens := splitSentencesAux st.1.data.length [] st.1.data
      let r := prefixLoop cfg.negative_prefixes positiveStarts rng sens
        st.2.1 st.2.2
      ((⟨r.1.foldr (· ++ ·) []⟩ : String), r.2.1, r.2.2)
    else (st.1, st.2.1, st.2.2)
  ((restoreLoop pr.2 pf.1, pf.2.1), pf.2.2)

end Cognitus

namespace Cognitus

/-! ## `content_manager/__init__.py` : `ContentManager.process_content`

The orchestrator is built with every configuration argument `None`, so each
handler runs with its default configuration; the claims about it use that
constructor.  Python's `result` variable starts as the raw `str` and only
becomes a `ProcessedContent` inside the `sanitize` branch; the sum type
`PyVal` models that dynamic typing, and attribute access on the `str` side
raises `AttributeError` exactly where Python would (`result.content`, the
first line of `add_modification`, and the assignment in `mark_complete`).

`process_content` also calls `EmojiExtractor.extract_emoji` in the emoji
branch; that call is total, and its result feeds only the modification
metadata (not modelled, see the storer section), so it is elided here —
the branch then fails inside `format_emoji` regardless. -/

/-- The dynamic type of the orchestrator's `result` variable. -/
inductive PyVal where
  | str (s : String)
  | pc (p : ProcessedContent)
  deriving Repr

/-- `result.content`: attribute access, failing on a plain string. -/
def pyContent : PyVal → Except PyError String
  | .str _ => .error .attributeError
  | .pc p => .ok p.content

/-- `add_modification(result, …)`: its first line reads
`processed_content.content`, failing on a plain string. -/
def pyAddModification (v : PyVal) (new_content modification_type : String) :
    Except PyError PyVal :=
  match v with
  | .str _ => .error .attributeError
  | .pc p => .ok (.pc (addModification p new_content modification_type))

/-- `mark_complete(result)`: assigns `processing_complete`, failing on a
plain string. -/
def pyMarkComplete : PyVal → Except PyError ProcessedContent
  | .str _ => .error .attributeError
  | .pc p => .ok (markComplete p)

/-- The `if sanitize:` block of `process_content`: profanity filter (a
fresh `ProcessedContent` via `store_content`), whitespace cleaning
(trimmer then break cleaner, one modification), punctuation cleaning
(standardizer then excess remover, one modification). -/
def sanitizePhase (content : String) (raw : RawContent) :
    Except PyError ProcessedContent :=
  match replaceProfanity {} {} content with
  | .error e => .error e
  | .ok pf =>
    let r1 := storeContent pf.1 raw.content (some "profanity_filter")
    let c3 := (cleanBreaks defaultLineBreakConfig
      (trimSpaces defaultSpaceTrimConfig r1.content).1).1
    let r2 := addModification r1 c3 "whitespace_clean"
    let c5 := (removeExcess defaultExcessConfig
      (standardize defaultStandardizationConfig r2.content).1).1
    .ok (addModification r2 c5 "punctuation_clean")

/-- The formality block of `process_content`. -/
def formalityPhase (formality : Option String) (result : PyVal) :
    Except PyError PyVal :=
  if formality = some "casual" then
    match pyContent result with
    | .error e => .error e
    | .ok c =>
      pyAddModification result
        (setCasualFormality defaultCasualFormality c).1 "casual_formality"
  else if formality = some "formal" then
    match pyContent result with
    | .error e => .error e
    | .ok c =>
      pyAddModification result
        (setFormalFormality defaultFormalFormality c).1 "formal_formality"
  else .ok result

/-- The tone block of `process_content` (threads the rng counter). -/
def tonePhase (rng : Nat → Nat) (k : Nat) (tone : Option String)
    (result : PyVal) : Except PyError (PyVal × Nat) :=
  if tone = some "positive" then
    match pyContent result with
    | .error e => .error e
    | .ok c =>
      let st := applyPositiveTone defaultPositiveToneConfig rng k c
      match pyAddModification result st.1.1 "positive_tone" with
      | .error e => .error e
      | .ok r => .ok (r, st.2)
  else if tone = some "negative" then
    match pyContent result with
    | .error e => .error e
    | .ok c =>
      let st := applyNegativeTone defaultNegativeToneConfig rng k c
      match pyAddModification result st.1.1 "negative_tone" with
      | .error e => .error e
      | .ok r => .ok (r, st.2)
  else .ok (result, k)

/-- The emoji block of `process_content`: extraction elided (total,
metadata-only), then `format_emoji`, which raises under the default
configuration. -/
def emojiPhase (limiter : String → Nat → String) (process_emoji : Bool)
    (result : PyVal) : Except PyError PyVal :=
  if process_emoji then
    match pyContent result with
    | .error e => .error e
    | .ok c =>
      match formatEmoji defaultFormatterConfig limiter c with
      | .error e => .error e
      | .ok f => pyAddModification result f.1 "emoji_process"
  else .ok result

/-- `ContentManager.process_content` with the default (all-`None`)
constructor configuration. -/
def processContent (rng : Nat → Nat) (limiter : String → Nat → String)
    (content : String) (sanitize : Bool) (formality tone : Option String)
    (process_emoji : Bool) : Except PyError ProcessedContent :=
  let raw := rawStoreContent content
  let step1 : Except PyError PyVal :=
    if sanitize then
      match sanitizePhase content raw with
      | .error e => .error e
      | .ok p => .ok (.pc p)
    else .ok (.str content)
  match step1 with
  | .error e => .error e
  | .ok r1 =>
    match formalityPhase formality r1 with
    | .error e => .error e
    | .ok r2 =>
      match tonePhase rng 0 tone r2 with
      | .error e => .error e
      | .ok (r3, _) =>
        match emojiPhase limiter process_emoji r3 with
        | .error e => .error e
        | .ok r4 => pyMarkComplete r4

end Cognitus

namespace Cognitus

/-- Claim C9: the length-field invariant `final_length ==
len(content)` holds after `store_content` and `add_modification`, and is
preserved by `mark_complete`. -/
theorem c9_final_length_invariant :
    (∀ c o mt, (storeContent c o mt).final_length =
      (storeContent c o mt).content.length) ∧
    (∀ pc nc mt, (addModification pc nc mt).final_length =
      (addModification pc nc mt).content.length) ∧
    (∀ pc : ProcessedContent, pc.final_length = pc.content.length →
      (markComplete pc).final_length = (markComplete pc).content.length) := by
  refine ⟨fun c o mt => ?_, fun pc nc mt => rfl, fun pc h => h⟩
  cases mt <;> rfl

/-- Witness for C9: the `mark_complete` clause applied to a concrete
`ProcessedContent` produced by `store_content`. -/
theorem c9_final_length_invariant_witness :
    (markComplete (storeContent "ab" "ab" none)).final_length =
      (markComplete (storeContent "ab" "ab" none)).content.length :=
  c9_final_length_invariant.2.2 (storeContent "ab" "ab" none)
    (c9_final_length_invariant.1 "ab" "ab" none)

/-- Replacing the one-character pattern `'\x00'` by `'\n'` is a character
map, provided the fuel covers the list. -/
theorem replaceNul_eq_map :
    ∀ (fuel : Nat) (s : List Char), s.length ≤ fuel →
      replaceAllAux ['\x00'] ['\n'] fuel s =
        s.map (fun c => if c = '\x00' then '\n' else c) := by
  intro fuel
  induction fuel with
  | zero =>
    intro s hs
    have hnil : s = [] := List.length_eq_zero.mp (Nat.le_zero.mp hs)
    subst hnil
    simp [replaceAllAux]
  | succ n ih =>
    intro s hs
    match s with
    | [] => simp [replaceAllAux]
    | c :: rest =>
      have hlen : rest.length ≤ n := Nat.succ_le_succ_iff.mp hs
      by_cases hc : c = '\x00'
      · subst hc
        have hpre : (['\x00'].isPrefixOf ('\x00' :: rest)) = true := by
          simp [List.isPrefixOf]
        rw [replaceAllAux, if_pos hpre]
        show '\n' :: replaceAllAux _ _ n rest = _
        rw [ih rest hlen]
        simp
      · have hpre : (['\x00'].isPrefixOf (c :: rest)) = false := by
          simp [List.isPrefixOf]
          exact fun h => hc h.symm
        rw [replaceAllAux, if_neg (by simp [hpre])]
        rw [ih rest hlen]
        simp [hc]

/-- No `'\x00'` survives the NUL-to-newline replacement. -/
theorem replaceNul_not_mem (fuel : Nat) (s : List Char) (hs : s.length ≤ fuel) :
    '\x00' ∉ replaceAllAux ['\x00'] ['\n'] fuel s := by
  rw [replaceNul_eq_map fuel s hs]
  intro hmem
  rcases List.mem_map.mp hmem with ⟨a, _, ha⟩
  by_cases h : a = '\x00'
  · rw [if_pos h] at ha
    exact absurd ha (by decide)
  · rw [if_neg h] at ha
    exact h ha

/-- Every character produced by `replaceAllAux` comes from the replacement
or from the input. -/
theorem replaceAllAux_chars (pat rep : List Char) :
    ∀ (fuel : Nat) (s : List Char) (c : Char),
      c ∈ replaceAllAux pat rep fuel s → c ∈ rep ∨ c ∈ s := by
  intro fuel
  induction fuel with
  | zero =>
    intro s c hc
    cases s with
    | nil => simp [replaceAllAux] at hc
    | cons a rest => exact Or.inr (by simpa [replaceAllAux] using hc)
  | succ n ih =>
    intro s c hc
    cases s with
    | nil => simp [replaceAllAux] at hc
    | cons a rest =>
      by_cases hpre : pat.isPrefixOf (a :: rest)
      · rw [replaceAllAux, if_pos hpre] at hc
        rcases List.mem_append.mp hc with h | h
        · exact Or.inl h
        · rcases ih _ c h with h' | h'
          · exact Or.inl h'
          · exact Or.inr (List.mem_of_mem_drop h')
      · rw [replaceAllAux, if_neg hpre] at hc
        rcases List.mem_cons.mp hc with h | h
        · exact Or.inr (h ▸ List.mem_cons_self a rest)
        · rcases ih rest c h with h' | h'
          · exact Or.inl h'
          · exact Or.inr (List.mem_cons_of_mem a h')

/-- Every character of every line produced by `splitTermGo` comes from the
pending line or from the input. -/
theorem splitTermGo_chars :
    ∀ (s line l : List Char), l ∈ splitTermGo line s →
      ∀ c ∈ l, c ∈ line ∨ c ∈ s := by
  intro s
  induction s with
  | nil =>
    intro line l hl c hc
    simp only [splitTermGo, List.mem_singleton] at hl
    subst hl
    exact Or.inl (List.mem_reverse.mp hc)
  | cons a rest ih =>
    intro line l hl c hc
    by_cases ha : isLineTerm a
    · rw [splitTermGo, if_pos ha] at hl
      rcases List.mem_cons.mp hl with h | h
      · subst h
        exact Or.inl (List.mem_reverse.mp hc)
      · by_cases hr : rest.isEmpty
        · rw [if_pos hr] at h
          cases h
        · rw [if_neg hr] at h
          rcases ih [] l h c hc with h' | h'
          · cases h'
          · exact Or.inr (List.mem_cons_of_mem a h')
    · rw [splitTermGo, if_neg ha] at hl
      rcases ih (a :: line) l hl c hc with h' | h'
      · rcases List.mem_cons.mp h' with h'' | h''
        · exact Or.inr (h'' ▸ List.mem_cons_self a rest)
        · exact Or.inl h''
      · exact Or.inr (List.mem_cons_of_mem a h')

/-- Every character of `joinLines` is a `'\n'` or comes from one of the
lines. -/
theorem joinLines_chars :
    ∀ (ls : List (List Char)) (c : Char), c ∈ joinLines ls →
      c = '\n' ∨ ∃ l ∈ ls, c ∈ l := by
  intro ls
  induction ls with
  | nil => intro c hc; simp [joinLines] at hc
  | cons l ls ih =>
    intro c hc
    cases ls with
    | nil =>
      right
      exact ⟨l, List.mem_singleton_self l, by simpa [joinLines] using hc⟩
    | cons l2 ls2 =>
      rw [joinLines] at hc
      rcases List.mem_append.mp hc with h | h
      · exact Or.inr ⟨l, List.mem_cons_self .., h⟩
      · rcases List.mem_cons.mp h with h | h
        · exact Or.inl h
        · rcases ih c h with h' | ⟨l', hl', hc'⟩
          · exact Or.inl h'
          · exact Or.inr ⟨l', List.mem_cons_of_mem l hl', hc'⟩

/-- Characters survive `dropWhile`. -/
theorem mem_of_mem_dropWhile {p : Char → Bool} :
    ∀ {l : List Char} {c : Char}, c ∈ l.dropWhile p → c ∈ l := by
  intro l
  induction l with
  | nil => intro c hc; simp at hc
  | cons a rest ih =>
    intro c hc
    by_cases ha : p a
    · rw [List.dropWhile_cons_of_pos ha] at hc
      exact List.mem_cons_of_mem a (ih hc)
    · rw [List.dropWhile_cons_of_neg ha] at hc
      exact hc

/-- The last two stages of `trim_spaces` (paragraph-break restore and
per-line `lstrip`) leave no `'\x00'`, whatever string they receive. -/
theorem trimLastStages_no_nul (X : String) :
    '\x00' ∉ joinLines ((pySplitlines (pyReplace X "\x00" "\n").data).map
      (fun l => if pyIsSpaceStr l then l else pyLstrip l)) := by
  intro hmem
  have hnul : '\x00' ∉ (pyReplace X "\x00" "\n").data :=
    replaceNul_not_mem X.data.length X.data le_rfl
  rcases joinLines_chars _ _ hmem with h | ⟨l', hl', hc'⟩
  · exact absurd h (by decide)
  · rcases List.mem_map.mp hl' with ⟨l, hlmem, rfl⟩
    have hc2 : '\x00' ∈ l := by
      by_cases hsp : pyIsSpaceStr l
      · simpa [hsp] using hc'
      · exact mem_of_mem_dropWhile (p := pyIsSpace) (by simpa [hsp, pyLstrip] using hc')
    rcases hm : (pyReplace X "\x00" "\n").data with _ | ⟨m, ms⟩
    · rw [hm] at hlmem
      simp [pySplitlines] at hlmem
    · rw [hm] at hlmem hnul
      have hsplit : l ∈ splitTermGo []
          (replaceAllAux ['\x0d', '\n'] ['\n'] (m :: ms).length (m :: ms)) := by
        simpa [pySplitlines] using hlmem
      rcases splitTermGo_chars _ _ _ hsplit '\x00' hc2 with h' | h'
      · cases h'
      · rcases replaceAllAux_chars _ _ _ _ _ h' with h'' | h''
        · exact absurd h'' (by decide)
        · exact hnul h''

/-- Counterexample to claim C10 as stated: the claim says every literal
NUL of the input comes back as a newline in the returned text, but on
"x\x00" the default-configuration trimmer returns "x", which contains no
newline at all — the paragraph-break restore step does rewrite the NUL to
a newline ("x\n"), but the final per-line `splitlines`/`join` step drops a
newline standing at the very end of the text. -/
theorem c10_trailing_nul_counterexample :
    (trimSpaces defaultSpaceTrimConfig "x\x00").1 = "x" ∧
    (((trimSpaces defaultSpaceTrimConfig "x\x00").1).data.contains '\n') =
      false := by
  exact ⟨by decide, by decide⟩

/-- Claim C10 as amended: `ExtraSpaceTrimmer.trim_spaces` with the default
configuration rewrites every `'\x00'` of the input — the paragraph-break
restore step replaces all `'\x00'` characters by `'\n'`, not only the
markers the trimmer inserted itself — so no `'\x00'` ever survives into
the output for any input, and an interior NUL comes back as a newline
("a\x00b" yields "a\nb"); only a newline arising at the very end of the
text is then dropped by the final `splitlines`/`join` step ("x\x00"
yields "x"). -/
theorem c10_trim_spaces_nul_amended :
    (∀ t : String,
      (((trimSpaces defaultSpaceTrimConfig t).1).data.contains '\x00') = false) ∧
    (trimSpaces defaultSpaceTrimConfig "a\x00b").1 = "a\nb" ∧
    (trimSpaces defaultSpaceTrimConfig "x\x00").1 = "x" := by
  refine ⟨fun t => ?_, by decide, by decide⟩
  have h : '\x00' ∉ ((trimSpaces defaultSpaceTrimConfig t).1).data :=
    trimLastStages_no_nul _
  simpa [List.elem_eq_mem] using h

/-- Claim C8 (failure): with the default configuration,
`trim_spaces` is not idempotent.  On `"a\r\rb"` the first application
yields `"a\n\nb"`, but re-running on that output yields `"a\n\n\nb"` —
the paragraph-break marker `'\n\x00\n'` is restored as three newlines, so a
blank line grows on every encounter (the same slip makes the repository's
own `test_preserve_paragraphs` fail: `"Paragraph 1\n\nParagraph 2"` comes
back with a third newline inserted). -/
theorem c8_trim_spaces_not_idempotent :
    (trimSpaces defaultSpaceTrimConfig "a\x0d\x0db").1 = "a\n\nb" ∧
    (trimSpaces defaultSpaceTrimConfig "a\n\nb").1 = "a\n\n\nb" ∧
    (trimSpaces defaultSpaceTrimConfig
        ((trimSpaces defaultSpaceTrimConfig "a\x0d\x0db").1)).1 ≠
      (trimSpaces defaultSpaceTrimConfig "a\x0d\x0db").1 ∧
    (trimSpaces defaultSpaceTrimConfig "Paragraph 1\n\nParagraph 2").1 =
      "Paragraph 1\n\n\nParagraph 2" := by
  refine ⟨by decide, by decide, by decide, by decide⟩

end Cognitus

namespace Cognitus

/-- Claim C6 (failure): with the default configuration `standardize` maps
"Hello… world...." to "Hello. . . world. . .", not to the claimed
"Hello... world...".  The Unicode ellipsis and the four-dot run do first
collapse to three dots, but the `fix_spacing` step then inserts a space
after every dot that is followed by another dot, splitting each ellipsis
apart; the repository's own `test_ellipsis_standardization` asserts the
three-dot output and fails on the code. -/
theorem c6_ellipsis_standardization_diverges :
    standardize defaultStandardizationConfig "Hello… world...." =
      ("Hello. . . world. . .",
        [("\"", 0), (": \"'\",  # Smart single quotes\n        ", 0),
         ("—", 0), ("–", 0), ("―", 0), ("…", 1),
         ("․", 0), ("‥", 0)]) ∧
    (standardize defaultStandardizationConfig "Hello… world....").1 ≠
      "Hello... world..." := by
  exact ⟨by decide, by decide⟩

/-- Claim C7: with the default limits (`'!'` capped at three), `remove_excess`
maps "Hello!!!!!!" to "Hello!!!" with three excess characters recorded for
`'!'`, and with the inline-code span protected it maps
"Normal!!!! `code!!!!` Normal!!!!" to "Normal!!! `code!!!!` Normal!!!",
leaving the content inside the backticks unchanged. -/
theorem c7_remove_excess_examples :
    removeExcess defaultExcessConfig "Hello!!!!!!" =
      ("Hello!!!", [('!', 3), ('?', 0), ('.', 0), ('-', 0)]) ∧
    removeExcess defaultExcessConfig "Normal!!!! `code!!!!` Normal!!!!" =
      ("Normal!!! `code!!!!` Normal!!!",
        [('!', 2), ('?', 0), ('.', 0), ('-', 0)]) := by
  exact ⟨by decide, by decide⟩

/-- Claim C4 (failure): protect-then-restore is not the identity.  On
"**a** _b_" the bold pattern assigns marker `MD0` to `**a**` and the italic
pattern — whose counter restarts at zero — assigns the same marker `MD0` to
`_b_`; restoring replaces both marker occurrences with whichever pair is
iterated first, so the round trip yields "**a** **a**" (insertion order) or
"_b_ _b_" (the other order of the two-element set) — never the original.
Consequently `remove_excess`, which contains no over-long punctuation run
here, also fails to return the text unchanged.  The repository's own
`test_special_content_combination` fails on exactly this collision. -/
theorem c4_span_round_trip_fails :
    restoreSpecial (preserveSpecial defaultExcessConfig "**a** _b_").1
        (preserveSpecial defaultExcessConfig "**a** _b_").2 = "**a** **a**" ∧
    restoreSpecial (preserveSpecial defaultExcessConfig "**a** _b_").1
        { (preserveSpecial defaultExcessConfig "**a** _b_").2 with
          markdown :=
            ((preserveSpecial defaultExcessConfig "**a** _b_").2).markdown.reverse } =
      "_b_ _b_" ∧
    ("**a** **a**" : String) ≠ "**a** _b_" ∧
    ("_b_ _b_" : String) ≠ "**a** _b_" ∧
    (removeExcess defaultExcessConfig "**a** _b_").1 = "**a** **a**" := by
  exact ⟨by decide, by decide, by decide, by decide, by decide⟩

end Cognitus

namespace Cognitus

/-- Claim C5 (failure): the whole-word profanity replacement never gets to
match.  With blacklist `{bad, worse}`, case-insensitive matching,
`whole_words_only = True` and custom replacement `bad -> good`, the call
builds the regex flags from `self.config.blacklist_loader`, a field
`ReplacementConfig` does not have, and raises `AttributeError` on the first
blacklist word — in either iteration order of the two-word set — instead of
returning the filtered text with stats; the repository's own
`test_whole_words_only` fails the same way. -/
theorem c5_profanity_replacer_raises :
    replaceProfanity { default_blacklist := ["bad", "worse"] }
        { custom_replacements := [("bad", "good")] }
        "badword isn't bad but worse is" = .error .attributeError ∧
    replaceProfanity { default_blacklist := ["worse", "bad"] }
        { custom_replacements := [("bad", "good")] }
        "badword isn't bad but worse is" = .error .attributeError := by
  exact ⟨rfl, rfl⟩

end Cognitus

namespace Cognitus

/-- Claim C3 (failure): `format_emoji` with the default `FormatterConfig`
raises on every input, emoji or not, empty string included — the default
enables `emoji_spacing`, and `_add_emoji_spacing`'s patterns use the
Perl-only escape `\x` with braces, which Python's `re` rejects when the
pattern is compiled — so the call never returns the claimed
`(text, stats)` pair (and on emoji-free text never returns the text
unchanged with all-zero stats). -/
theorem c3_format_emoji_always_raises :
    ∀ (limiter : String → Nat → String) (t : String),
      formatEmoji defaultFormatterConfig limiter t = .error .regexError :=
  fun _ _ => rfl

end Cognitus

namespace Cognitus

/-- The chain-consistency property of a `ProcessedContent`: a nonempty
audit trail whose adjacent entries agree
(`modifications[i].modified_content == modifications[i+1].original_content`),
opening at `original_content` and closing at `content` — so replaying the
`modified_content` of each entry in order from `original_content`
reconstructs `content`. -/
def chainOk (P : ProcessedContent) : Prop :=
  P.modifications ≠ [] ∧
  List.Chain' (fun a b => a.modified_content = b.original_content)
    P.modifications ∧
  P.modifications.head?.map ContentModification.original_content =
    some P.original_content ∧
  P.modifications.getLast?.map ContentModification.modified_content =
    some P.content

/-- `chainOk` on whichever value the orchestrator's `result` variable
holds (vacuous while it is still the raw string). -/
def pyChainOk : PyVal → Prop
  | .str _ => True
  | .pc p => chainOk p

/-- `store_content` with a modification type establishes the chain. -/
theorem chainOk_storeContent (c o mt : String) :
    chainOk (storeContent c o (some mt)) := by
  refine ⟨by simp [storeContent], ?_, by simp [storeContent], by simp [storeContent]⟩
  simp [storeContent, List.chain'_singleton]

/-- `add_modification` preserves the chain: the new entry's
`original_content` is the previous `content`, and `content` becomes the
new entry's `modified_content`. -/
theorem chainOk_addModification (P : ProcessedContent) (nc mt : String)
    (h : chainOk P) : chainOk (addModification P nc mt) := by
  obtain ⟨hne, hchain, hhead, hlast⟩ := h
  refine ⟨by simp [addModification], ?_, ?_, ?_⟩
  · rw [addModification]
    simp only [List.chain'_append]
    refine ⟨hchain, List.chain'_singleton _, ?_⟩
    intro x hx y hy
    simp only [List.head?_cons, Option.mem_def, Option.some.injEq] at hy
    subst hy
    have : P.modifications.getLast?.map ContentModification.modified_content =
        some P.content := hlast
    rcases hgl : P.modifications.getLast? with _ | m
    · rw [hgl] at this; cases this
    · rw [hgl] at this hx
      simp only [Option.map_some', Option.some.injEq] at this
      simp only [Option.mem_def, Option.some.injEq] at hx
      subst hx
      exact this
  · rw [addModification]
    simp only [List.head?_append]
    rcases hh : P.modifications.head? with _ | m
    · rw [hh] at hhead; cases hhead
    · rw [hh] at hhead
      simpa using hhead
  · rw [addModification]
    simp [List.getLast?_concat]

/-- `mark_complete` only flips the completion flag. -/
theorem chainOk_markComplete (P : ProcessedContent) (h : chainOk P) :
    chainOk (markComplete P) := h

/-- The sanitize branch produces a chained `ProcessedContent` (under the
default constructor the blacklist is empty, so the profanity filter
returns the text unmodified and the branch cannot fail). -/
theorem sanitizePhase_chainOk (content : String) (raw : RawContent)
    (P : ProcessedContent) (h : sanitizePhase content raw = .ok P) :
    chainOk P := by
  obtain rfl : _ = P := Except.ok.inj h
  exact chainOk_addModification _ _ _
    (chainOk_addModification _ _ _ (chainOk_storeContent _ _ _))

/-- The formality block preserves the chain on success. -/
theorem formalityPhase_inv (f : Option String) (v v' : PyVal)
    (h : formalityPhase f v = .ok v') (hv : pyChainOk v) : pyChainOk v' := by
  rw [formalityPhase] at h
  by_cases hc : f = some "casual"
  · rw [if_pos hc] at h
    cases v with
    | str s => cases h
    | pc p =>
      obtain rfl : _ = v' := Except.ok.inj h
      exact chainOk_addModification _ _ _ hv
  · rw [if_neg hc] at h
    by_cases hf : f = some "formal"
    · rw [if_pos hf] at h
      cases v with
      | str s => cases h
      | pc p =>
        obtain rfl : _ = v' := Except.ok.inj h
        exact chainOk_addModification _ _ _ hv
    · rw [if_neg hf] at h
      obtain rfl : v = v' := Except.ok.inj h
      exact hv

/-- The tone block preserves the chain on success. -/
theorem tonePhase_inv (rng : Nat → Nat) (k : Nat) (t : Option String)
    (v : PyVal) (p : PyVal × Nat) (h : tonePhase rng k t v = .ok p)
    (hv : pyChainOk v) : pyChainOk p.1 := by
  rw [tonePhase] at h
  by_cases hc : t = some "positive"
  · rw [if_pos hc] at h
    cases v with
    | str s => cases h
    | pc q =>
      obtain rfl : _ = p := Except.ok.inj h
      exact chainOk_addModification _ _ _ hv
  · rw [if_neg hc] at h
    by_cases hf : t = some "negative"
    · rw [if_pos hf] at h
      cases v with
      | str s => cases h
      | pc q =>
        obtain rfl : _ = p := Except.ok.inj h
        exact chainOk_addModification _ _ _ hv
    · rw [if_neg hf] at h
      obtain rfl : (v, k) = p := Except.ok.inj h
      exact hv

/-- The emoji block preserves the chain on success (under the default
configuration it in fact always fails on a `ProcessedContent`, because
`format_emoji` raises; the lemma does not need that). -/
theorem emojiPhase_inv (limiter : String → Nat → String) (e : Bool)
    (v v' : PyVal) (h : emojiPhase limiter e v = .ok v')
    (hv : pyChainOk v) : pyChainOk v' := by
  rw [emojiPhase] at h
  by_cases he : e
  · rw [if_pos he] at h
    cases v with
    | str s => cases h
    | pc q => cases h
  · rw [if_neg he] at h
    obtain rfl : v = v' := Except.ok.inj h
    exact hv

/-- `mark_complete` returns only from a `ProcessedContent`, keeping the
chain. -/
theorem pyMarkComplete_inv (v : PyVal) (P : ProcessedContent)
    (h : pyMarkComplete v = .ok P) (hv : pyChainOk v) : chainOk P := by
  cases v with
  | str s => cases h
  | pc p =>
    obtain rfl : markComplete p = P := Except.ok.inj h
    exact chainOk_markComplete p hv

/-- Claim C1: chain consistency of the modification audit trail.  For
every input string, every flag combination, every random source and every
emoji-limiter on which `process_content` returns a `ProcessedContent` `P`:
the trail is nonempty, adjacent entries satisfy
`modifications[i].modified_content = modifications[i+1].original_content`,
the first entry starts at `P.original_content`, and the last entry ends at
`P.content` — replaying the entries from `original_content` reconstructs
`P.content` exactly. -/
theorem c1_process_content_chain_consistency (rng : Nat → Nat)
    (limiter : String → Nat → String) (content : String) (sanitize : Bool)
    (formality tone : Option String) (process_emoji : Bool)
    (P : ProcessedContent)
    (h : processContent rng limiter content sanitize formality tone
      process_emoji = .ok P) : chainOk P := by
  rw [processContent] at h
  split at h
  · cases h
  · rename_i r1 hr1
    have hc1 : pyChainOk r1 := by
      by_cases hs : sanitize
      · rw [if_pos hs] at hr1
        split at hr1
        · cases hr1
        · rename_i p2 h2
          obtain rfl : PyVal.pc p2 = r1 := Except.ok.inj hr1
          exact sanitizePhase_chainOk _ _ _ h2
      · rw [if_neg hs] at hr1
        obtain rfl : PyVal.str content = r1 := Except.ok.inj hr1
        trivial
    split at h
    · cases h
    · rename_i r2 h3
      have hc2 := formalityPhase_inv _ _ _ h3 hc1
      split at h
      · cases h
      · rename_i r3 k3 h4
        have hc3 : pyChainOk r3 := tonePhase_inv rng 0 tone r2 (r3, k3) h4 hc2
        split at h
        · cases h
        · rename_i r4 h5
          exact pyMarkComplete_inv _ _ h (emojiPhase_inv _ _ _ _ h5 hc3)

end Cognitus

namespace Cognitus

/-- Witness for C1: on input "hi" with `sanitize = true` and everything
else off, `process_content` returns, and the theorem yields the chain for
the concrete result. -/
theorem c1_process_content_chain_consistency_witness :
    chainOk
      { content := "hi", original_content := "hi",
        modifications :=
          [{ modification_type := "profanity_filter",
             original_content := "hi", modified_content := "hi" },
           { modification_type := "whitespace_clean",
             original_content := "hi", modified_content := "hi" },
           { modification_type := "punctuation_clean",
             original_content := "hi", modified_content := "hi" }],
        final_length := 2, processing_complete := true } :=
  c1_process_content_chain_consistency (fun k => k) (fun s _ => s) "hi" true
    none none false _ rfl

/-- Claim C2 (failure): with `sanitize = False` the orchestrator's
`result` variable is still the raw `str` when the later stages touch it,
so `process_content("hello", sanitize=False, formality=None, tone=None,
process_emoji=False)` raises `AttributeError` in `mark_complete`
(assigning `processing_complete` on a `str`), and the variant with
`formality="formal"` raises `AttributeError` at `result.content` — neither
call returns a `ProcessedContent`, let alone one with
`processing_complete = True` or a single formality modification. -/
theorem c2_process_content_sanitize_false_raises :
    (∀ (rng : Nat → Nat) (limiter : String → Nat → String),
      processContent rng limiter "hello" false none none false =
        .error .attributeError) ∧
    (∀ (rng : Nat → Nat) (limiter : String → Nat → String),
      processContent rng limiter "hello" false (some "formal") none false =
        .error .attributeError) :=
  ⟨fun _ _ => rfl, fun _ _ => rfl⟩

end Cognitus
